import Mathlib

/-!
Shallow embedding of the persistence layer of the `setado` repository
(`src/database.py`, `src/config.py`, `src/models.py`).

Modelling conventions:
* Timestamps (`datetime.now().isoformat()`, ISO-8601 text in SQLite) are
  modelled as `Nat`; the string comparison SQLite performs on ISO text is
  order-isomorphic to numeric comparison of these codes.  Each mutating
  operation receives the current time as an explicit `now : Nat` argument.
* The SQLite tables `projects` and `tasks` are lists of rows in insertion
  (rowid) order; `AUTOINCREMENT` primary keys are the `nextProjectId` /
  `nextTaskId` counters, never reused.
* `PRAGMA foreign_keys = ON` is per-connection state, modelled by the
  `fkEnabled` flag.  `DatabaseManager._backup` closes the connection and
  reopens it (`sqlite3.connect`) without re-running the pragma, so a fresh
  connection has foreign-key enforcement off: `backup` sets `fkEnabled`
  to `false` and counts the snapshot file it copies in `backups`.
* `create_task` is the only operation that can fail (SQLite raises
  `IntegrityError` when the foreign key is enforced and the parent project
  row is missing); it returns `Except Unit _`, every other operation is
  total, matching the exception-free Python code.
-/

/-- Row of the `projects` table (`src/database.py`, `_create_tables`). -/
structure ProjectRow where
  id : Nat
  name : String
  description : Option String
  is_archived : Bool
  created_at : Nat
  archived_at : Option Nat
deriving DecidableEq

/-- Row of the `tasks` table (`src/database.py`, `_create_tables`). -/
structure TaskRow where
  id : Nat
  project_id : Nat
  title : String
  priority : Int
  due_date : Option Nat
  is_completed : Bool
  is_deleted : Bool
  created_at : Nat
  completed_at : Option Nat
  deleted_at : Option Nat
deriving DecidableEq

/-- The observable state of a `DatabaseManager`: both tables, the
`AUTOINCREMENT` counters, the per-connection foreign-key pragma state,
and the number of backup snapshot files written so far. -/
structure DBState where
  projects : List ProjectRow
  tasks : List TaskRow
  nextProjectId : Nat
  nextTaskId : Nat
  fkEnabled : Bool
  backups : Nat
deriving DecidableEq

/-- State after `__init__` / `_create_tables` on a fresh database file:
empty tables, and `PRAGMA foreign_keys = ON` has been executed on the
initial connection. -/
def initState : DBState :=
  { projects := [], tasks := [], nextProjectId := 1, nextTaskId := 1,
    fkEnabled := true, backups := 0 }

/-- `DatabaseManager._backup`: copies the database file to a timestamped
snapshot, closing and reopening the connection around the copy.  The
reopened connection never re-runs `PRAGMA foreign_keys = ON`, so
enforcement is off afterwards. -/
def backup (s : DBState) : DBState :=
  { s with fkEnabled := false, backups := s.backups + 1 }

/-- `DatabaseManager.create_project`: unconditional `INSERT` (no
validation of `name`), commit, then backup.  Returns the new row. -/
def create_project (s : DBState) (now : Nat) (name : String)
    (description : Option String) : DBState × ProjectRow :=
  let row : ProjectRow :=
    { id := s.nextProjectId, name := name, description := description,
      is_archived := false, created_at := now, archived_at := none }
  (backup { s with projects := s.projects ++ [row],
                   nextProjectId := s.nextProjectId + 1 }, row)

/-- Name-ascending order used by `get_projects` (`ORDER BY name`). -/
def projLE (a b : ProjectRow) : Prop := a.name ≤ b.name

instance : DecidableRel projLE := fun a b => by
  unfold projLE; infer_instance

/-- `DatabaseManager.get_projects`. -/
def get_projects (s : DBState) (include_archived : Bool) : List ProjectRow :=
  let rows := if include_archived then s.projects
              else s.projects.filter (fun p => !p.is_archived)
  List.insertionSort projLE rows

/-- `DatabaseManager.archive_project`: `UPDATE projects SET is_archived = 1,
archived_at = now WHERE id = project_id`, commit, backup. -/
def archive_project (s : DBState) (now : Nat) (project_id : Nat) : DBState :=
  backup { s with projects := s.projects.map (fun p =>
    if p.id == project_id then
      { p with is_archived := true, archived_at := some now } else p) }

/-- `DatabaseManager.delete_project`: hard-deletes the task rows with the
given `project_id`, then the project row, commit, backup. -/
def delete_project (s : DBState) (project_id : Nat) : DBState :=
  backup { s with
    tasks := s.tasks.filter (fun t => !(t.project_id == project_id)),
    projects := s.projects.filter (fun p => !(p.id == project_id)) }

/-- `DatabaseManager.create_task`: inserts a task row.  When the current
connection enforces foreign keys and no project row with the given id
exists, SQLite raises `IntegrityError` and nothing is inserted; otherwise
the row is inserted (no validation of `title`), commit, backup. -/
def create_task (s : DBState) (now : Nat) (project_id : Nat) (title : String)
    (priority : Int) (due_date : Option Nat) :
    Except Unit (DBState × TaskRow) :=
  if s.fkEnabled && !(s.projects.any (fun p => p.id == project_id)) then
    .error ()
  else
    let row : TaskRow :=
      { id := s.nextTaskId, project_id := project_id, title := title,
        priority := priority, due_date := due_date, is_completed := false,
        is_deleted := false, created_at := now, completed_at := none,
        deleted_at := none }
    .ok (backup { s with tasks := s.tasks ++ [row],
                         nextTaskId := s.nextTaskId + 1 }, row)

/-- The `ORDER BY priority, created_at` order of `get_tasks`:
priority ascending, ties broken by creation time ascending. -/
def taskLE (a b : TaskRow) : Prop :=
  a.priority < b.priority ∨ (a.priority = b.priority ∧ a.created_at ≤ b.created_at)

instance : DecidableRel taskLE := fun a b => by
  unfold taskLE; infer_instance

instance : IsTotal TaskRow taskLE := by
  constructor; intro a b; unfold taskLE; omega

instance : IsTrans TaskRow taskLE := by
  constructor; intro a b c; unfold taskLE; omega

/-- `DatabaseManager.get_tasks`: tasks of one project, the soft-deleted
ones excluded unless `include_deleted`, ordered by
`(priority, created_at)` ascending. -/
def get_tasks (s : DBState) (project_id : Nat) (include_deleted : Bool) :
    List TaskRow :=
  let rows :=
    if include_deleted then
      s.tasks.filter (fun t => t.project_id == project_id)
    else
      s.tasks.filter (fun t => t.project_id == project_id && !t.is_deleted)
  List.insertionSort taskLE rows

/-- `ORDER BY due_date ASC` order of `get_tasks_with_due_dates` (every
selected row has a non-null `due_date`). -/
def dueLE (a b : TaskRow) : Prop := a.due_date.getD 0 ≤ b.due_date.getD 0

instance : DecidableRel dueLE := fun a b => by
  unfold dueLE; infer_instance

instance : IsTotal TaskRow dueLE := by
  constructor; intro a b; unfold dueLE; omega

instance : IsTrans TaskRow dueLE := by
  constructor; intro a b c; unfold dueLE; omega

/-- `DatabaseManager.get_tasks_with_due_dates`: active tasks with a due
date, nearest first.  With `none` it joins `projects` and keeps only
tasks of non-archived projects; with `some pid` it reads one project's
tasks with no join. -/
def get_tasks_with_due_dates (s : DBState) (project_id : Option Nat) :
    List TaskRow :=
  match project_id with
  | none =>
      List.insertionSort dueLE (s.tasks.filter (fun t =>
        t.due_date.isSome && !t.is_completed && !t.is_deleted &&
        s.projects.any (fun p => p.id == t.project_id && !p.is_archived)))
  | some pid =>
      List.insertionSort dueLE (s.tasks.filter (fun t =>
        t.project_id == pid && t.due_date.isSome &&
        !t.is_completed && !t.is_deleted))

/-- `ORDER BY completed_at DESC` order of `get_completed_tasks`
(a null `completed_at` sorts last, as SQLite puts NULLs last on DESC). -/
def compGE (a b : TaskRow) : Prop := b.completed_at.getD 0 ≤ a.completed_at.getD 0

instance : DecidableRel compGE := fun a b => by
  unfold compGE; infer_instance

instance : IsTotal TaskRow compGE := by
  constructor; intro a b; unfold compGE; omega

instance : IsTrans TaskRow compGE := by
  constructor; intro a b c; unfold compGE; omega

/-- `DatabaseManager.get_completed_tasks`: completed, non-deleted tasks,
most recently completed first; with `none` only tasks of non-archived
projects (join), with `some pid` one project's tasks. -/
def get_completed_tasks (s : DBState) (project_id : Option Nat) :
    List TaskRow :=
  match project_id with
  | none =>
      List.insertionSort compGE (s.tasks.filter (fun t =>
        t.is_completed && !t.is_deleted &&
        s.projects.any (fun p => p.id == t.project_id && !p.is_archived)))
  | some pid =>
      List.insertionSort compGE (s.tasks.filter (fun t =>
        t.project_id == pid && t.is_completed && !t.is_deleted))

/-- `DatabaseManager.complete_task`: `UPDATE tasks SET is_completed = 1,
completed_at = now WHERE id = task_id`, commit, backup. -/
def complete_task (s : DBState) (now : Nat) (task_id : Nat) : DBState :=
  backup { s with tasks := s.tasks.map (fun t =>
    if t.id == task_id then
      { t with is_completed := true, completed_at := some now } else t) }

/-- `DatabaseManager.uncomplete_task`: `UPDATE tasks SET is_completed = 0,
completed_at = NULL WHERE id = task_id`, commit, backup. -/
def uncomplete_task (s : DBState) (task_id : Nat) : DBState :=
  backup { s with tasks := s.tasks.map (fun t =>
    if t.id == task_id then
      { t with is_completed := false, completed_at := none } else t) }

/-- `DatabaseManager.delete_task`: `UPDATE tasks SET is_deleted = 1,
deleted_at = now WHERE id = task_id` (unconditional), commit, backup. -/
def delete_task (s : DBState) (now : Nat) (task_id : Nat) : DBState :=
  backup { s with tasks := s.tasks.map (fun t =>
    if t.id == task_id then
      { t with is_deleted := true, deleted_at := some now } else t) }

/-- One `key=value` keyword argument of `DatabaseManager.update_task`.
The five typed constructors carry the values callers pass for the five
schema columns; `other` is a keyword whose name is outside that set. -/
inductive UpdateField where
  | title (v : String)
  | priority (v : Int)
  | due_date (v : Option Nat)
  | is_completed (v : Bool)
  | is_deleted (v : Bool)
  | other (name : String)
deriving DecidableEq

/-- The Python keyword name of an `UpdateField`. -/
def updFieldName : UpdateField → String
  | .title _ => "title"
  | .priority _ => "priority"
  | .due_date _ => "due_date"
  | .is_completed _ => "is_completed"
  | .is_deleted _ => "is_deleted"
  | .other n => n

/-- `allowed_fields` of `DatabaseManager.update_task`. -/
def allowedFields : List String :=
  ["title", "priority", "due_date", "is_completed", "is_deleted"]

/-- Effect of one `key = ?` assignment of the generated `UPDATE` on a row. -/
def applyUpd (t : TaskRow) : UpdateField → TaskRow
  | .title v => { t with title := v }
  | .priority v => { t with priority := v }
  | .due_date v => { t with due_date := v }
  | .is_completed v => { t with is_completed := v }
  | .is_deleted v => { t with is_deleted := v }
  | .other _ => t

/-- `DatabaseManager.update_task`: returns early when `kwargs` is empty or
filtering by `allowed_fields` leaves no assignment (no commit, no backup);
otherwise applies the retained assignments to the row with the given id,
commits and backups. -/
def update_task (s : DBState) (task_id : Nat) (kwargs : List UpdateField) :
    DBState :=
  if kwargs.isEmpty then s
  else if (kwargs.filter (fun f => allowedFields.contains (updFieldName f))).isEmpty
  then s
  else
    backup { s with tasks := s.tasks.map (fun t =>
      if t.id == task_id then
        (kwargs.filter
          (fun f => allowedFields.contains (updFieldName f))).foldl applyUpd t
      else t) }

/-- `create_task` as seen by a caller that keeps its handle on the store:
on `IntegrityError` nothing was inserted, so the state is unchanged. -/
def createTaskD (s : DBState) (now : Nat) (project_id : Nat) (title : String)
    (priority : Int) (due_date : Option Nat) : DBState :=
  match create_task s now project_id title priority due_date with
  | .ok (s', _) => s'
  | .error _ => s

/-- One invocation of a mutating operation of `DatabaseManager`, with the
wall-clock time the operation would read via `datetime.now()`. -/
inductive StoreOp where
  | createProject (now : Nat) (name : String) (description : Option String)
  | archiveProject (now project_id : Nat)
  | deleteProject (project_id : Nat)
  | createTask (now project_id : Nat) (title : String) (priority : Int)
      (due_date : Option Nat)
  | completeTask (now task_id : Nat)
  | uncompleteTask (task_id : Nat)
  | deleteTask (now task_id : Nat)
  | updateTask (task_id : Nat) (kwargs : List UpdateField)
deriving DecidableEq

/-- Resulting store state of one mutating operation. -/
def applyOp (s : DBState) : StoreOp → DBState
  | .createProject now n d => (create_project s now n d).1
  | .archiveProject now pid => archive_project s now pid
  | .deleteProject pid => delete_project s pid
  | .createTask now pid t p d => createTaskD s now pid t p d
  | .completeTask now tid => complete_task s now tid
  | .uncompleteTask tid => uncomplete_task s tid
  | .deleteTask now tid => delete_task s now tid
  | .updateTask tid kw => update_task s tid kw

/-- The spec invariant "`completed_at` is non-null if and only if
`is_completed` is true", over every task row of a state. -/
def completedInv (s : DBState) : Prop :=
  ∀ t ∈ s.tasks, t.completed_at.isSome = t.is_completed

instance (s : DBState) : Decidable (completedInv s) :=
  List.decidableBAll _ s.tasks

/-- Does this keyword argument assign the `is_completed` column? -/
def isCompletedUpd : UpdateField → Bool
  | .is_completed _ => true
  | _ => false

/-- Does the operation pass `is_completed` to `update_task`? -/
def touchesCompleted : StoreOp → Bool
  | .updateTask _ kw => kw.any isCompletedUpd
  | _ => false

/-- Equality of the two tables (what "leaves every project and task row
unchanged" observes; the backup side effect is not a row). -/
def rowsEq (a b : DBState) : Prop := a.projects = b.projects ∧ a.tasks = b.tasks

instance (a b : DBState) : Decidable (rowsEq a b) := by
  unfold rowsEq; infer_instance

/-- A reachable state: one project (id 1) holding one task (id 1),
created at times 0 and 1. -/
def sampleState : DBState :=
  applyOp (applyOp initState (.createProject 0 "P" none)) (.createTask 1 1 "T" 0 none)

/-- The one task row of `sampleState` as it stands after
`delete_task sampleState 10 1`: soft-deleted at time 10. -/
def deletedSampleTask : TaskRow :=
  { id := 1, project_id := 1, title := "T", priority := 0, due_date := none,
    is_completed := false, is_deleted := true, created_at := 1,
    completed_at := none, deleted_at := some 10 }

/-- A reachable state realising the spec's ordering example: tasks with
priorities `[5, -1, 0]` created in that order (ids 1, 2, 3). -/
def orderingState : DBState :=
  applyOp (applyOp (applyOp (applyOp initState (.createProject 0 "Home" none))
    (.createTask 1 1 "t1" 5 none)) (.createTask 2 1 "t2" (-1) none))
    (.createTask 3 1 "t3" 0 none)

/-- A reachable state with two equal-priority tasks, task 1 created
before task 2. -/
def tieState : DBState :=
  applyOp (applyOp (applyOp initState (.createProject 0 "Home" none))
    (.createTask 1 1 "t1" 7 none)) (.createTask 2 1 "t2" 7 none)

/-- The settings record of `src/config.py` (`Config` dataclass).  The
default paths stand in for the `APP_DIR`-relative defaults. -/
structure Config where
  database_path : String
  backup_path : String
  frame_count : Nat
  default_priority : Int
  theme : String
  frame_projects : List Nat
deriving DecidableEq

/-- `Config.default()`. -/
def Config.default : Config :=
  { database_path := "data/todoui.db", backup_path := "data/backups",
    frame_count := 3, default_priority := 0, theme := "dark",
    frame_projects := [] }

/-- The settings file, abstracted by what `json.load` + `Config(**data)`
would produce: `absent` when the file does not exist, `present (some c)`
when it exists and loads as `c`, `present none` when it exists but
loading raises (corrupt JSON, schema mismatch, wrong field set). -/
inductive ConfigFile where
  | absent
  | present (parsed : Option Config)
deriving DecidableEq

/-- `ConfigManager._load_or_create`: returns the configuration in force
and the settings file afterwards (`_save` writes the current config, so
the file then parses back as exactly that config).  The `try/except`
around loading catches every exception, so this function is total:
startup never fails on a load error. -/
def load_or_create : ConfigFile → Config × ConfigFile
  | .absent => (Config.default, .present (some Config.default))
  | .present (some c) => (c, .present (some c))
  | .present none => (Config.default, .present (some Config.default))

/-! ## Helper lemmas -/

theorem mem_get_tasks {s : DBState} {pid : Nat} {d : Bool} {t : TaskRow}
    (h : t ∈ get_tasks s pid d) : t ∈ s.tasks ∧ t.project_id = pid := by
  unfold get_tasks at h
  cases d with
  | false =>
      simp [List.mem_filter] at h
      exact ⟨h.1, h.2.1⟩
  | true =>
      simp [List.mem_filter] at h
      exact ⟨h.1, h.2⟩

theorem mem_get_due_some {s : DBState} {pid : Nat} {t : TaskRow}
    (h : t ∈ get_tasks_with_due_dates s (some pid)) :
    t ∈ s.tasks ∧ t.project_id = pid := by
  unfold get_tasks_with_due_dates at h
  simp [List.mem_filter] at h
  refine ⟨h.1, ?_⟩
  tauto

theorem mem_get_due_none {s : DBState} {t : TaskRow}
    (h : t ∈ get_tasks_with_due_dates s none) : t ∈ s.tasks := by
  unfold get_tasks_with_due_dates at h
  simp [List.mem_filter] at h
  exact h.1

theorem mem_get_completed_some {s : DBState} {pid : Nat} {t : TaskRow}
    (h : t ∈ get_completed_tasks s (some pid)) :
    t ∈ s.tasks ∧ t.project_id = pid := by
  unfold get_completed_tasks at h
  simp [List.mem_filter] at h
  refine ⟨h.1, ?_⟩
  tauto

theorem mem_get_completed_none {s : DBState} {t : TaskRow}
    (h : t ∈ get_completed_tasks s none) : t ∈ s.tasks := by
  unfold get_completed_tasks at h
  simp [List.mem_filter] at h
  exact h.1

theorem delete_project_not_mem {s : DBState} {pid : Nat} :
    ∀ t ∈ (delete_project s pid).tasks, t.project_id ≠ pid := by
  intro t ht
  have ht' : t ∈ s.tasks.filter (fun u => !(u.project_id == pid)) := ht
  rw [List.mem_filter] at ht'
  simpa using ht'.2

theorem map_ite_id {α : Type} (l : List α) (c : α → Bool) (f : α → α)
    (h : ∀ x ∈ l, c x = false) : (l.map fun x => if c x then f x else x) = l := by
  induction l with
  | nil => rfl
  | cons a l ih =>
      simp only [List.map_cons, h a (by simp), if_false, Bool.false_eq_true]
      rw [ih (fun x hx => h x (by simp [hx]))]

theorem foldl_applyUpd_completed_at (l : List UpdateField) (t : TaskRow) :
    (l.foldl applyUpd t).completed_at = t.completed_at := by
  induction l generalizing t with
  | nil => rfl
  | cons f l ih =>
      rw [List.foldl_cons, ih]
      cases f <;> rfl

theorem foldl_applyUpd_is_completed (l : List UpdateField) (t : TaskRow)
    (h : ∀ f ∈ l, isCompletedUpd f = false) :
    (l.foldl applyUpd t).is_completed = t.is_completed := by
  induction l generalizing t with
  | nil => rfl
  | cons f l ih =>
      rw [List.foldl_cons, ih _ (fun g hg => h g (by simp [hg]))]
      cases f with
      | is_completed v =>
          exact absurd (h (UpdateField.is_completed v) (by simp))
            (by simp [isCompletedUpd])
      | title v => rfl
      | priority v => rfl
      | due_date v => rfl
      | is_deleted v => rfl
      | other n => rfl

theorem createTaskD_tasks (s : DBState) (now pid : Nat) (ti : String)
    (pr : Int) (du : Option Nat) :
    (createTaskD s now pid ti pr du).tasks = s.tasks ∨
    ∃ r : TaskRow, r.is_completed = false ∧ r.completed_at = none ∧
      (createTaskD s now pid ti pr du).tasks = s.tasks ++ [r] := by
  unfold createTaskD create_task
  by_cases hc : (s.fkEnabled && !(s.projects.any fun p => p.id == pid)) = true
  · rw [if_pos hc]
    exact Or.inl rfl
  · rw [if_neg hc]
    exact Or.inr ⟨_, rfl, rfl, rfl⟩

/-! ## Claims -/

/-- Claim C4, counterexample: on a reachable one-task store, two
`delete_task` calls at times 10 and 11 do not leave the state of a single
call — the second call overwrites `deleted_at` with its own timestamp
(`some 11`), not the first call's (`some 10`). -/
theorem delete_task_twice_counterexample :
    (delete_task (delete_task sampleState 10 1) 11 1).tasks
      ≠ (delete_task sampleState 10 1).tasks ∧
    ((delete_task (delete_task sampleState 10 1) 11 1).tasks.map
      (fun t => t.deleted_at)) = [some 11] ∧
    ((delete_task sampleState 10 1).tasks.map
      (fun t => t.deleted_at)) = [some 10] := by
  refine ⟨by decide, by decide, by decide⟩

/-- Claim C4 (amended): `delete_task` is idempotent only up to the
timestamp: a second call leaves the task rows identical to a single call
made at the second call's time, i.e. `deleted_at` reflects the most
recent call's timestamp (the `UPDATE` is unconditional). -/
theorem delete_task_twice_last_write : ∀ (s : DBState) (t1 t2 tid : Nat),
    (delete_task (delete_task s t1 tid) t2 tid).tasks
      = (delete_task s t2 tid).tasks := by
  intro s t1 t2 tid
  simp only [delete_task, backup]
  rw [List.map_map]
  apply List.map_congr_left
  intro t _
  by_cases h : (t.id == tid) = true
  · simp [Function.comp, h]
  · simp [Function.comp, h]

/-- Claim C5: every mutating operation given an id matching no existing
row (no project with that id, no task referencing it, no task with that
id) is a successful no-op: it raises nothing (all these operations are
total functions) and leaves both tables unchanged. -/
theorem mutation_on_missing_id_noop (s : DBState)
    (pid tid now now2 : Nat) (kwargs : List UpdateField)
    (hp : ∀ p ∈ s.projects, p.id ≠ pid)
    (ho : ∀ t ∈ s.tasks, t.project_id ≠ pid)
    (ht : ∀ t ∈ s.tasks, t.id ≠ tid) :
    rowsEq (archive_project s now pid) s ∧
    rowsEq (delete_project s pid) s ∧
    rowsEq (complete_task s now tid) s ∧
    rowsEq (uncomplete_task s tid) s ∧
    rowsEq (delete_task s now2 tid) s ∧
    rowsEq (update_task s tid kwargs) s := by
  have hp' : ∀ p ∈ s.projects, (p.id == pid) = false := by
    intro p hmem; simpa using hp p hmem
  have ho' : ∀ t ∈ s.tasks, (t.project_id == pid) = false := by
    intro t hmem; simpa using ho t hmem
  have ht' : ∀ t ∈ s.tasks, (t.id == tid) = false := by
    intro t hmem; simpa using ht t hmem
  refine ⟨⟨map_ite_id _ _ _ hp', rfl⟩, ?_, ⟨rfl, map_ite_id _ _ _ ht'⟩,
    ⟨rfl, map_ite_id _ _ _ ht'⟩, ⟨rfl, map_ite_id _ _ _ ht'⟩, ?_⟩
  · constructor
    · show s.projects.filter (fun p => !(p.id == pid)) = s.projects
      rw [List.filter_eq_self]
      intro p hmem; simp [hp' p hmem]
    · show s.tasks.filter (fun t => !(t.project_id == pid)) = s.tasks
      rw [List.filter_eq_self]
      intro t hmem; simp [ho' t hmem]
  · unfold update_task
    by_cases h1 : kwargs.isEmpty = true
    · rw [if_pos h1]
      exact ⟨rfl, rfl⟩
    · rw [if_neg h1]
      by_cases h2 :
          (kwargs.filter
            (fun f => allowedFields.contains (updFieldName f))).isEmpty = true
      · rw [if_pos h2]
        exact ⟨rfl, rfl⟩
      · rw [if_neg h2]
        exact ⟨rfl, map_ite_id _ _ _ ht'⟩

/-- Claim C5, witness: on a store holding project 1 and task 1, all six
mutations aimed at project id 5 / task id 7 leave both tables unchanged. -/
theorem mutation_on_missing_id_noop_witness :
    rowsEq (archive_project sampleState 3 5) sampleState ∧
    rowsEq (delete_project sampleState 5) sampleState ∧
    rowsEq (complete_task sampleState 3 7) sampleState ∧
    rowsEq (uncomplete_task sampleState 7) sampleState ∧
    rowsEq (delete_task sampleState 4 7) sampleState ∧
    rowsEq (update_task sampleState 7 [UpdateField.title "x"]) sampleState :=
  mutation_on_missing_id_noop sampleState 5 7 3 4 [UpdateField.title "x"]
    (by decide) (by decide) (by decide)

/-- Claim C6: after `delete_project P.id`, no task of project P survives:
every per-project listing for that id (even with `include_deleted`) is
empty, and the cross-project due-date and completed listings contain no
task referencing that project. -/
theorem delete_project_removes_all_tasks (s : DBState) (pid : Nat) :
    get_tasks (delete_project s pid) pid true = [] ∧
    get_tasks (delete_project s pid) pid false = [] ∧
    get_tasks_with_due_dates (delete_project s pid) (some pid) = [] ∧
    get_completed_tasks (delete_project s pid) (some pid) = [] ∧
    (∀ t ∈ get_tasks_with_due_dates (delete_project s pid) none,
      t.project_id ≠ pid) ∧
    (∀ t ∈ get_completed_tasks (delete_project s pid) none,
      t.project_id ≠ pid) ∧
    (∀ (q : Nat) (d : Bool), ∀ t ∈ get_tasks (delete_project s pid) q d,
      t.project_id ≠ pid) := by
  have key : ∀ t ∈ (delete_project s pid).tasks, t.project_id ≠ pid :=
    delete_project_not_mem
  refine ⟨?_, ?_, ?_, ?_, ?_, ?_, ?_⟩
  · rw [List.eq_nil_iff_forall_not_mem]
    intro t hmem
    rcases mem_get_tasks hmem with ⟨h1, h2⟩
    exact key t h1 h2
  · rw [List.eq_nil_iff_forall_not_mem]
    intro t hmem
    rcases mem_get_tasks hmem with ⟨h1, h2⟩
    exact key t h1 h2
  · rw [List.eq_nil_iff_forall_not_mem]
    intro t hmem
    rcases mem_get_due_some hmem with ⟨h1, h2⟩
    exact key t h1 h2
  · rw [List.eq_nil_iff_forall_not_mem]
    intro t hmem
    rcases mem_get_completed_some hmem with ⟨h1, h2⟩
    exact key t h1 h2
  · intro t hmem
    exact key t (mem_get_due_none hmem)
  · intro t hmem
    exact key t (mem_get_completed_none hmem)
  · intro q d t hmem
    exact key t (mem_get_tasks hmem).1

/-- Claim C7: `get_tasks` always returns its rows ordered by priority
ascending with ties broken by creation time ascending; in particular on a
store whose tasks were created with priorities `[5, -1, 0]` in that order
it returns them as `[-1, 0, 5]`, and of two equal-priority tasks the one
created first (id 1) comes first. -/
theorem get_tasks_ordering :
    (∀ (s : DBState) (pid : Nat) (d : Bool),
      List.Pairwise taskLE (get_tasks s pid d)) ∧
    (get_tasks orderingState 1 false).map (fun t => t.priority)
      = [-1, 0, 5] ∧
    (get_tasks orderingState 1 false).map (fun t => t.id) = [2, 3, 1] ∧
    (get_tasks tieState 1 false).map (fun t => t.id) = [1, 2] := by
  refine ⟨?_, by decide, by decide, by decide⟩
  intro s pid d
  exact List.sorted_insertionSort taskLE _

/-- Claim C1, counterexample: on the reachable store `sampleState` the
`completed_at`-iff-`is_completed` invariant holds, but one call of
`update_task` with `is_completed=True` among the supplied fields breaks
it: the flag is set while `completed_at` stays NULL. -/
theorem completed_inv_update_counterexample :
    completedInv sampleState ∧
    ¬ completedInv (applyOp sampleState
      (StoreOp.updateTask 1 [UpdateField.is_completed true])) := by
  refine ⟨by decide, by decide⟩

/-- Claim C1 (amended): the invariant "`completed_at` is non-null iff
`is_completed`" is preserved by every store operation except `update_task`
with `is_completed` among its supplied fields — that operation writes the
flag and never touches `completed_at`, so it does not preserve the
invariant. -/
theorem completed_inv_preserved (s : DBState) (op : StoreOp)
    (hinv : completedInv s) (hop : touchesCompleted op = false) :
    completedInv (applyOp s op) := by
  cases op with
  | createProject now n d =>
      intro t hmem
      exact hinv t hmem
  | archiveProject now pid =>
      intro t hmem
      exact hinv t hmem
  | deleteProject pid =>
      intro t hmem
      exact hinv t (List.mem_of_mem_filter hmem)
  | createTask now pid ti pr du =>
      intro t hmem
      have hmem' : t ∈ (createTaskD s now pid ti pr du).tasks := hmem
      rcases createTaskD_tasks s now pid ti pr du with h | ⟨r, hr1, hr2, h⟩
      · rw [h] at hmem'
        exact hinv t hmem'
      · rw [h, List.mem_append] at hmem'
        rcases hmem' with hmem | hmem
        · exact hinv t hmem
        · rcases List.mem_singleton.mp hmem with rfl
          rw [hr1, hr2]
          rfl
  | completeTask now tid =>
      intro t hmem
      rcases List.mem_map.mp hmem with ⟨u, hu, rfl⟩
      by_cases h : (u.id == tid) = true
      · simp [h]
      · simp only [h, Bool.false_eq_true, if_false]
        exact hinv u hu
  | uncompleteTask tid =>
      intro t hmem
      rcases List.mem_map.mp hmem with ⟨u, hu, rfl⟩
      by_cases h : (u.id == tid) = true
      · simp [h]
      · simp only [h, Bool.false_eq_true, if_false]
        exact hinv u hu
  | deleteTask now tid =>
      intro t hmem
      rcases List.mem_map.mp hmem with ⟨u, hu, rfl⟩
      by_cases h : (u.id == tid) = true
      · simp only [h, if_true]
        exact hinv u hu
      · simp only [h, Bool.false_eq_true, if_false]
        exact hinv u hu
  | updateTask tid kw =>
      have hnone : ∀ f ∈ kw, isCompletedUpd f = false := by
        intro f hf
        have := List.any_eq_false.mp hop
        simpa using this f hf
      show completedInv (update_task s tid kw)
      unfold update_task
      by_cases h1 : kw.isEmpty = true
      · rw [if_pos h1]
        exact hinv
      · rw [if_neg h1]
        by_cases h2 :
            (kw.filter
              (fun f => allowedFields.contains (updFieldName f))).isEmpty = true
        · rw [if_pos h2]
          exact hinv
        · rw [if_neg h2]
          intro t hmem
          rcases List.mem_map.mp hmem with ⟨u, hu, rfl⟩
          by_cases h : (u.id == tid) = true
          · simp only [h, if_true]
            have hflt : ∀ f ∈ kw.filter
                (fun g => allowedFields.contains (updFieldName g)),
                isCompletedUpd f = false :=
              fun f hf => hnone f (List.mem_of_mem_filter hf)
            rw [foldl_applyUpd_completed_at, foldl_applyUpd_is_completed _ _ hflt]
            exact hinv u hu
          · simp only [h, Bool.false_eq_true, if_false]
            exact hinv u hu

/-- Claim C1, witness: `complete_task` at time 5 on the reachable store
`sampleState` (whose invariant holds) preserves the invariant. -/
theorem completed_inv_preserved_witness :
    completedInv (applyOp sampleState (StoreOp.completeTask 5 1)) :=
  completed_inv_preserved sampleState (StoreOp.completeTask 5 1)
    (by decide) (by decide)

/-- Claim C2, counterexample: the store accepts the empty inputs the
claim says it rejects — `create_project` with name `""` inserts a project
row, and `create_task` with title `""` (under the existing project 1)
inserts a task row. -/
theorem empty_inputs_inserted_counterexample :
    ((create_project initState 0 "" none).1.projects.map (fun p => p.name))
      = [""] ∧
    ((createTaskD (create_project initState 0 "P" none).1 1 1 "" 0 none).tasks.map
      (fun t => t.title)) = [""] := by
  refine ⟨by decide, by decide⟩

/-- Claim C2 (amended): the store performs no emptiness validation —
`create_project` with an empty name and `create_task` with an empty title
(for an existing project) insert a row exactly like any other input;
rejection of empty input is left entirely to the calling UI. -/
theorem empty_inputs_accepted (s : DBState) (now : Nat) (desc : Option String)
    (pid : Nat) (prio : Int) (due : Option Nat)
    (h : s.projects.any (fun p => p.id == pid) = true) :
    (create_project s now "" desc).1.projects.length = s.projects.length + 1 ∧
    (create_project s now "" desc).2.name = "" ∧
    ∃ s' r, create_task s now pid "" prio due = Except.ok (s', r) ∧
      s'.tasks.length = s.tasks.length + 1 ∧ r.title = "" := by
  have hc : (s.fkEnabled && !(s.projects.any fun p => p.id == pid)) = false := by
    simp [h]
  refine ⟨?_, rfl, ?_⟩
  · simp [create_project, backup]
  · unfold create_task
    rw [if_neg (by simp [hc])]
    refine ⟨_, _, rfl, ?_, rfl⟩
    simp [backup]

/-- Claim C2, witness: on the reachable store `sampleState` (project 1
exists), the empty-name project insert and empty-title task insert both
add a row. -/
theorem empty_inputs_accepted_witness :
    (create_project sampleState 9 "" none).1.projects.length
      = sampleState.projects.length + 1 ∧
    (create_project sampleState 9 "" none).2.name = "" ∧
    ∃ s' r, create_task sampleState 9 1 "" 2 none = Except.ok (s', r) ∧
      s'.tasks.length = sampleState.tasks.length + 1 ∧ r.title = "" :=
  empty_inputs_accepted sampleState 9 none 1 2 none (by decide)

/-- Claim C3: foreign-key enforcement survives only until the first
backup.  On the fresh connection `create_task` with an absent project id
is rejected (`IntegrityError`, nothing inserted), but the very first
mutation's `_backup` reopens the connection without re-running
`PRAGMA foreign_keys = ON`; after it, `create_task` with project id 999
inserts an orphan row, and that task then shows up in `get_tasks 999`. -/
theorem create_task_fk_lost_after_backup :
    (create_project initState 0 "P" none).1.fkEnabled = false ∧
    create_task initState 0 999 "x" 0 none = Except.error () ∧
    ((createTaskD (create_project initState 0 "P" none).1 1 999 "x" 0 none).tasks.map
      (fun t => (t.id, t.project_id))) = [(1, 999)] ∧
    ((get_tasks (createTaskD (create_project initState 0 "P" none).1 1 999 "x" 0 none)
      999 false).map (fun t => t.id)) = [1] := by
  refine ⟨rfl, rfl, by decide, by decide⟩

/-- Claim C8: when the settings file exists but loading it fails (the
`parsed` outcome is `none`: corrupt JSON or a schema mismatch),
`_load_or_create` returns the default configuration and `_save` rewrites
the file with those defaults; the function is total, so startup never
fails on a load error. -/
theorem settings_load_failure_falls_back :
    load_or_create (ConfigFile.present none)
      = (Config.default, ConfigFile.present (some Config.default)) := rfl

/-- Claim C9: `update_task` with `is_deleted=False` on a soft-deleted
task clears the flag — the task (now with `is_deleted = false` but its
old non-null `deleted_at` intact) is again a member of the task table and
of `get_tasks project_id include_deleted=false`: an un-delete path the
spec says does not exist. -/
theorem update_task_undeletes (s : DBState) (t : TaskRow) (d : Nat)
    (hmem : t ∈ s.tasks) (_hdel : t.is_deleted = true)
    (hts : t.deleted_at = some d) :
    { t with is_deleted := false }
      ∈ (update_task s t.id [UpdateField.is_deleted false]).tasks ∧
    { t with is_deleted := false }
      ∈ get_tasks (update_task s t.id [UpdateField.is_deleted false])
          t.project_id false ∧
    ({ t with is_deleted := false } : TaskRow).deleted_at = some d := by
  have hred : (update_task s t.id [UpdateField.is_deleted false]).tasks
      = s.tasks.map (fun u =>
          if u.id == t.id then { u with is_deleted := false } else u) := rfl
  have hmain : { t with is_deleted := false }
      ∈ (update_task s t.id [UpdateField.is_deleted false]).tasks := by
    rw [hred]
    have := List.mem_map_of_mem
      (f := fun u => if u.id == t.id then { u with is_deleted := false } else u)
      hmem
    simpa using this
  refine ⟨hmain, ?_, hts⟩
  show { t with is_deleted := false } ∈ List.insertionSort taskLE
      ((update_task s t.id [UpdateField.is_deleted false]).tasks.filter
        (fun u => u.project_id == t.project_id && !u.is_deleted))
  rw [List.mem_insertionSort, List.mem_filter]
  exact ⟨hmain, by simp⟩

/-- Claim C9, witness: on `sampleState` after `delete_task` at time 10,
`update_task 1 is_deleted=False` makes the task reappear in the table and
in the default listing, with `deleted_at` still `some 10`. -/
theorem update_task_undeletes_witness :
    { deletedSampleTask with is_deleted := false }
      ∈ (update_task (delete_task sampleState 10 1) deletedSampleTask.id
          [UpdateField.is_deleted false]).tasks ∧
    { deletedSampleTask with is_deleted := false }
      ∈ get_tasks (update_task (delete_task sampleState 10 1)
          deletedSampleTask.id [UpdateField.is_deleted false])
          deletedSampleTask.project_id false ∧
    ({ deletedSampleTask with is_deleted := false } : TaskRow).deleted_at
      = some 10 :=
  update_task_undeletes (delete_task sampleState 10 1) deletedSampleTask 10
    (by decide) (by decide) (by decide)

/-- Claim C10: `update_task` called with no keyword arguments, or with
only keywords outside `allowed_fields`, returns before committing or
copying anything: the state — rows, counters and backup count alike — is
exactly unchanged. -/
theorem update_task_unlisted_fields_noop (s : DBState) (tid : Nat)
    (kwargs : List UpdateField)
    (h : ∀ f ∈ kwargs, allowedFields.contains (updFieldName f) = false) :
    update_task s tid kwargs = s := by
  unfold update_task
  by_cases h1 : kwargs.isEmpty = true
  · rw [if_pos h1]
  · rw [if_neg h1]
    have hfil : kwargs.filter
        (fun f => allowedFields.contains (updFieldName f)) = [] := by
      rw [List.filter_eq_nil_iff]
      intro f hf
      simpa using h f hf
    have hemp : (kwargs.filter
        (fun f => allowedFields.contains (updFieldName f))).isEmpty = true := by
      rw [hfil]
      rfl
    rw [if_pos hemp]

/-- Claim C10, witness: `update_task` on `sampleState` with two unknown
keyword names (`created_at` is not in `allowed_fields` either) leaves the
state literally equal, backup counter included. -/
theorem update_task_unlisted_fields_noop_witness :
    update_task sampleState 1
      [UpdateField.other "created_at", UpdateField.other "nonsense"]
      = sampleState :=
  update_task_unlisted_fields_noop sampleState 1
    [UpdateField.other "created_at", UpdateField.other "nonsense"] (by decide)
